import Mathlib

/-!
Formal model of `src/rep.py` (`per_power_integer_interval.py`): an offline
summarizer that, for each integer power interval `[n, n+1)`, counts trades,
closed trades, TP/SL exits, and reports duration statistics of the closed
trades.

Every pandas column operation of the script is modelled per event.  A
DataFrame column that is absent behaves, for each row-level test the script
performs, exactly like a column of nulls, so the script's column-presence
checks collapse to per-event optional fields.
-/

namespace Rep

/-- A raw field value as `pd.to_numeric(values, errors="coerce")` classifies
it: `num q` is any present value coerced to the number `q` (numbers and
numeric strings alike), `nonnum` is any present value coerced to NaN. -/
inductive RawVal where
  | num (q : ℚ)
  | nonnum
deriving DecidableEq

/-- One trade record of `sim_closed.json`, every field optional (`none`
models an absent key or a null cell).  `open_time` and `close_time` hold the
timestamp in seconds produced by `pd.to_datetime(values, utc=True,
errors="coerce")`, with `none` for an absent or unparseable value (NaT).
`open_ts`, `close_ts` and `open_after_ts` hold epoch-like numbers; the
script subtracts them directly, so they are modelled as numbers. -/
structure Event where
  power : Option RawVal := none
  duration_sec : Option RawVal := none
  gain_pct : Option RawVal := none
  status : Option String := none
  exit_reason : Option String := none
  open_time : Option ℚ := none
  close_time : Option ℚ := none
  open_ts : Option ℚ := none
  close_ts : Option ℚ := none
  open_after_ts : Option ℚ := none
deriving DecidableEq

/-- Numeric coercion of one optional cell, `pd.to_numeric(values,
errors="coerce")` as applied on line 59 of `rep.py`. -/
def to_num : Option RawVal → Option ℚ
  | some (RawVal.num q) => some q
  | _ => none

/-- Negative-duration guard of `rep.py` lines 60-61: a negative value
becomes missing, every other value passes through unchanged. -/
def nonneg_guard : Option ℚ → Option ℚ :=
  fun x => x.bind fun q => if q < 0 then none else some q

/-- The `duration_sec` cell after the fallback chain of `compute_duration`
(`rep.py` lines 37-57) and before the final numeric coercion.  Each fallback
mask requires the cell to still be null (`isna`), so any present value, even
a non-numeric one, blocks every fallback. -/
def duration_raw (e : Event) : Option RawVal :=
  let s1 := e.duration_sec
  let s2 :=
    match s1 with
    | some v => some v
    | none =>
      match e.open_time, e.close_time with
      | some ot, some ct => some (RawVal.num (ct - ot))
      | _, _ => none
  let s3 :=
    match s2 with
    | some v => some v
    | none =>
      match e.open_ts, e.close_ts with
      | some o, some c => some (RawVal.num (c - o))
      | _, _ => none
  match s3 with
  | some v => some v
  | none =>
    match e.open_ts, e.open_after_ts with
    | some o, some a => some (RawVal.num (a - o))
    | _, _ => none

/-- `compute_duration` (`rep.py` lines 37-62), per event: the fallback
chain, then the numeric coercion of line 59, then the negative guard of
lines 60-61. -/
def compute_duration (e : Event) : Option ℚ :=
  nonneg_guard (to_num (duration_raw e))

/-- `prepare_power` (`rep.py` lines 64-70): `power_int` is
`np.floor(pd.to_numeric(power, errors="coerce"))` cast to nullable Int64;
a missing or non-numeric power floors NaN to NaN, which casts to null. -/
def power_int (e : Event) : Option ℤ :=
  match e.power with
  | some (RawVal.num q) => some ⌊q⌋
  | _ => none

/-- `str.upper()` as pandas applies it, character by character. -/
def str_upper (s : String) : String := String.mk (s.data.map Char.toUpper)

/-- `is_closed_series` (`rep.py` lines 72-78), per event.  A null status
renders as the string "nan" under `astype(str)`, which never equals
"CLOSED", so an absent status contributes false; a missing status column
likewise leaves the series at its initial false. -/
def is_closed (e : Event) : Bool :=
  (match e.status with
   | some s => str_upper s == "CLOSED"
   | none => false) || e.exit_reason.isSome

/-- The test `exit_reason == "TP"` after `astype(str).str.upper()`
(`rep.py` line 113); a null cell renders as "NAN", never "TP". -/
def is_tp (e : Event) : Bool :=
  match e.exit_reason with
  | some s => str_upper s == "TP"
  | none => false

/-- The test `exit_reason == "SL"` after `astype(str).str.upper()`
(`rep.py` line 114). -/
def is_sl (e : Event) : Bool :=
  match e.exit_reason with
  | some s => str_upper s == "SL"
  | none => false

/-- `Series.mean()` of a list of rationals. -/
def mean (l : List ℚ) : ℚ := l.sum / (l.length : ℚ)

/-- `Series.median()`: sort, take the middle element for odd length, the
average of the two middle elements for even length. -/
def median (l : List ℚ) : ℚ :=
  let s := l.insertionSort (· ≤ ·)
  if l.length % 2 = 1 then s.getD (l.length / 2) 0
  else (s.getD (l.length / 2 - 1) 0 + s.getD (l.length / 2) 0) / 2

/-- `Series.min()` of a nonempty list (0 as an unused default). -/
def list_min : List ℚ → ℚ
  | [] => 0
  | x :: xs => xs.foldl min x

/-- `Series.max()` of a nonempty list (0 as an unused default). -/
def list_max : List ℚ → ℚ
  | [] => 0
  | x :: xs => xs.foldl max x

/-- Python `round(x, 3)`, modelled on exact rationals.  Python rounds
half-to-even on binary floats; the two can differ only on exact ties,
which no property below depends on. -/
def round3 (q : ℚ) : ℚ := (round (q * 1000) : ℤ) / 1000

/-- Python `round(x, 6)`, modelled on exact rationals. -/
def round6 (q : ℚ) : ℚ := (round (q * 1000000) : ℤ) / 1000000

/-- The interval label `f"{n}-{n+1}"` of `rep.py` line 128. -/
def interval_label (n : ℤ) : String := toString n ++ "-" ++ toString (n + 1)

/-- One output row of `summarize_by_integer` (`rep.py` lines 126-138). -/
structure Row where
  power_int : ℤ
  range : String
  total_trades : ℕ
  closed_trades : ℕ
  tp_count : ℕ
  sl_count : ℕ
  avg_gain_pct : Option ℚ
  avg_duration_sec : Option ℚ
  median_duration_sec : Option ℚ
  min_duration_sec : Option ℚ
  max_duration_sec : Option ℚ
deriving DecidableEq

/-- `df_valid` (`rep.py` line 83): the rows with a non-null `power_int`. -/
def valid_events (events : List Event) : List Event :=
  events.filter fun e => (power_int e).isSome

/-- The observed `power_int` values (`rep.py` line 88); taking the min and
max of the multiset equals taking them over `unique()`. -/
def observed_ints (events : List Event) : List ℤ :=
  (valid_events events).filterMap power_int

/-- `ints.min()` of a list, none when the list is empty. -/
def obs_min : List ℤ → Option ℤ
  | [] => none
  | x :: xs => some (xs.foldl min x)

/-- `ints.max()` of a list, none when the list is empty. -/
def obs_max : List ℤ → Option ℤ
  | [] => none
  | x :: xs => some (xs.foldl max x)

/-- `k` consecutive integers starting at `lo`. -/
def int_range_aux : ℕ → ℤ → List ℤ
  | 0, _ => []
  | k + 1, lo => lo :: int_range_aux k (lo + 1)

/-- Python `list(range(min_int, max_int + 1))` (`rep.py` line 97). -/
def int_range (lo hi : ℤ) : List ℤ :=
  int_range_aux (hi + 1 - lo).toNat lo

/-- The group of valid rows with `power_int == n` (`rep.py` line 100). -/
def group_of (valid : List Event) (n : ℤ) : List Event :=
  valid.filter fun e => power_int e == some n

/-- The closed rows' resolved durations after dropping nulls, the series
whose statistics the script reports (`rep.py` lines 119-120). -/
def closed_durations (g : List Event) : List ℚ :=
  (g.filter is_closed).filterMap compute_duration

/-- The closed rows' numeric `gain_pct` values after coercion and
`dropna()` (`rep.py` line 117). -/
def gain_nums (g : List Event) : List ℚ :=
  (g.filter is_closed).filterMap fun e => to_num e.gain_pct

/-- One summary row (`rep.py` lines 99-138).  The tp/sl counters and the
statistics are filled only when the group has a closed row, mirroring the
`if closed > 0` block; with no closed rows they keep their initial 0/null.
The script's guard for `avg_gain_pct` tests the raw column before numeric
coercion; when raw values exist but none is numeric the script stores float
NaN, modelled here as missing (no claim touches `avg_gain_pct`). -/
def mk_row (valid : List Event) (n : ℤ) : Row :=
  let group := group_of valid n
  let closed_df := group.filter is_closed
  let closed := closed_df.length
  let ds := closed_durations group
  let gain_present := closed_df.filter fun e => e.gain_pct.isSome
  let gains := gain_nums group
  { power_int := n
    range := interval_label n
    total_trades := group.length
    closed_trades := closed
    tp_count := if 0 < closed then (closed_df.filter is_tp).length else 0
    sl_count := if 0 < closed then (closed_df.filter is_sl).length else 0
    avg_gain_pct :=
      if 0 < closed ∧ gain_present ≠ [] ∧ gains ≠ [] then
        some (round6 (mean gains))
      else none
    avg_duration_sec :=
      if 0 < closed ∧ ds ≠ [] then some (round3 (mean ds)) else none
    median_duration_sec :=
      if 0 < closed ∧ ds ≠ [] then some (round3 (median ds)) else none
    min_duration_sec :=
      if 0 < closed ∧ ds ≠ [] then some (round3 (list_min ds)) else none
    max_duration_sec :=
      if 0 < closed ∧ ds ≠ [] then some (round3 (list_max ds)) else none }

/-- `summarize_by_integer` (`rep.py` lines 80-140).  When no row has a
usable `power_int` the script returns an empty DataFrame (line 85), which
is exactly when the observed list has no min/max; otherwise it emits one
row per integer of `range(min_int, max_int + 1)`, the bounds defaulting to
the observed minimum and maximum. -/
def summarize_by_integer (events : List Event) (min_int max_int : Option ℤ) :
    List Row :=
  match obs_min (observed_ints events), obs_max (observed_ints events) with
  | some lo, some hi =>
      (int_range (min_int.getD lo) (max_int.getD hi)).map
        (mk_row (valid_events events))
  | _, _ => []

/-- What `main` prints when no single interval was requested
(`rep.py` lines 196-207). -/
inductive Report where
  | summaryEmpty
  | noClosedIntervals
  | fastestList (rows : List Row)
deriving DecidableEq

/-- The `sort_values("avg_duration_sec")` comparison: missing averages
(NaN) sort after every number (`na_position="last"`). -/
def le_avg_dur (a b : Row) : Bool :=
  match a.avg_duration_sec, b.avg_duration_sec with
  | some x, some y => x ≤ y
  | some _, none => true
  | none, some _ => false
  | none, none => true

/-- Insert into a list sorted by `le`, keeping earlier equal elements
first. -/
def insert_by {α : Type} (le : α → α → Bool) (a : α) : List α → List α
  | [] => [a]
  | b :: t => if le a b then a :: b :: t else b :: insert_by le a t

/-- A stable insertion sort by the boolean comparison `le`. -/
def sort_by {α : Type} (le : α → α → Bool) : List α → List α
  | [] => []
  | a :: t => insert_by le a (sort_by le t)

/-- `rep.py` line 199: the rows with at least one closed trade, ordered by
average duration ascending, first 20.  The script sorts with pandas'
default quicksort kind; the model uses a stable sort, one compliant
refinement of that unspecified order. -/
def fastest_list (summary : List Row) : List Row :=
  (sort_by le_avg_dur (summary.filter fun r => 0 < r.closed_trades)).take 20

/-- The branch structure of `rep.py` lines 196-207: an empty summary
prints the no-data message, a summary with no closed-trade interval prints
that message, otherwise the ranked list is printed. -/
def report_of_summary (summary : List Row) : Report :=
  if summary = [] then Report.summaryEmpty
  else if fastest_list summary = [] then Report.noClosedIntervals
  else Report.fastestList (fastest_list summary)

/-- Modelled from the spec: `tp_rate_pct` appears in the Aggregator
contract (spec section 4.4) but `rep.py` never computes it — its summary
rows stop at `tp_count` and `sl_count`.  The spec defines it as
`100 * tp_count / (tp_count + sl_count)` when `tp_count + sl_count > 0`
and missing otherwise. -/
def tp_rate_pct (tp sl : ℕ) : Option ℚ :=
  if 0 < tp + sl then some (100 * (tp : ℚ) / ((tp : ℚ) + (sl : ℚ)))
  else none

/-- The Duration Resolver exactly as claim C1 words it: a present but
non-numeric `duration_sec` also falls through to the timestamp fallbacks,
and the claim mentions no negative guard. -/
def claimed_duration (e : Event) : Option ℚ :=
  match to_num e.duration_sec with
  | some q => some q
  | none =>
    match e.open_time, e.close_time with
    | some ot, some ct => some (ct - ot)
    | _, _ =>
      match e.open_ts, e.close_ts with
      | some o, some c => some (c - o)
      | _, _ =>
        match e.open_ts, e.open_after_ts with
        | some o, some a => some (a - o)
        | _, _ => none

/-- The resolver as the code actually behaves (claim C1 amended): the
fallbacks fire only when `duration_sec` is null, so a present non-numeric
value blocks them and resolves to missing; a negative result resolves to
missing. -/
def amended_duration (e : Event) : Option ℚ :=
  nonneg_guard
    (match e.duration_sec with
     | some (RawVal.num q) => some q
     | some RawVal.nonnum => none
     | none =>
       match e.open_time, e.close_time with
       | some ot, some ct => some (ct - ot)
       | _, _ =>
         match e.open_ts, e.close_ts with
         | some o, some c => some (c - o)
         | _, _ =>
           match e.open_ts, e.open_after_ts with
           | some o, some a => some (a - o)
           | _, _ => none)

/-- An event whose `duration_sec` is present but not numeric while both
ISO timestamps parse: the case separating claim C1 from the code. -/
def non_numeric_duration_event : Event :=
  { duration_sec := some RawVal.nonnum
    open_time := some 0
    close_time := some 100 }


/-! Projection lemmas for `mk_row`. -/

lemma mk_row_power_int (v : List Event) (n : ℤ) : (mk_row v n).power_int = n := rfl

lemma mk_row_range (v : List Event) (n : ℤ) : (mk_row v n).range = interval_label n := rfl

lemma mk_row_total_trades (v : List Event) (n : ℤ) :
    (mk_row v n).total_trades = (group_of v n).length := rfl

lemma mk_row_closed_trades (v : List Event) (n : ℤ) :
    (mk_row v n).closed_trades = ((group_of v n).filter is_closed).length := rfl

lemma mk_row_tp_count (v : List Event) (n : ℤ) :
    (mk_row v n).tp_count =
      if 0 < ((group_of v n).filter is_closed).length then
        (((group_of v n).filter is_closed).filter is_tp).length
      else 0 := rfl

lemma mk_row_sl_count (v : List Event) (n : ℤ) :
    (mk_row v n).sl_count =
      if 0 < ((group_of v n).filter is_closed).length then
        (((group_of v n).filter is_closed).filter is_sl).length
      else 0 := rfl

/-! Shape lemmas for `summarize_by_integer`. -/

lemma summarize_empty (events : List Event) (min_int max_int : Option ℤ)
    (h : observed_ints events = []) :
    summarize_by_integer events min_int max_int = [] := by
  unfold summarize_by_integer
  rw [h]
  rfl

lemma summarize_spec (events : List Event) (min_int max_int : Option ℤ)
    (lo hi : ℤ) (h1 : obs_min (observed_ints events) = some lo)
    (h2 : obs_max (observed_ints events) = some hi) :
    summarize_by_integer events min_int max_int
      = (int_range (min_int.getD lo) (max_int.getD hi)).map
          (mk_row (valid_events events)) := by
  unfold summarize_by_integer
  rw [h1, h2]

lemma mem_summarize {events : List Event} {min_int max_int : Option ℤ} {row : Row}
    (h : row ∈ summarize_by_integer events min_int max_int) :
    ∃ n, row = mk_row (valid_events events) n := by
  cases hobs : observed_ints events with
  | nil =>
    rw [summarize_empty events min_int max_int hobs] at h
    exact absurd h (List.not_mem_nil row)
  | cons x xs =>
    have h1 : obs_min (observed_ints events) = some (xs.foldl min x) := by
      rw [hobs]; rfl
    have h2 : obs_max (observed_ints events) = some (xs.foldl max x) := by
      rw [hobs]; rfl
    rw [summarize_spec events min_int max_int _ _ h1 h2] at h
    obtain ⟨n, _, rfl⟩ := List.mem_map.mp h
    exact ⟨n, rfl⟩

/-! Lemmas about `int_range`. -/

lemma mem_int_range_aux {k : ℕ} {lo n : ℤ} :
    n ∈ int_range_aux k lo ↔ lo ≤ n ∧ n < lo + k := by
  induction k generalizing lo with
  | zero =>
    simp only [int_range_aux, List.not_mem_nil, false_iff]
    omega
  | succ k ih =>
    simp only [int_range_aux, List.mem_cons, ih]
    omega

lemma mem_int_range {lo hi n : ℤ} : n ∈ int_range lo hi ↔ lo ≤ n ∧ n ≤ hi := by
  rw [int_range, mem_int_range_aux]
  omega

lemma pairwise_int_range_aux {k : ℕ} {lo : ℤ} :
    List.Pairwise (fun a b => a < b) (int_range_aux k lo) := by
  induction k generalizing lo with
  | zero => exact List.Pairwise.nil
  | succ k ih =>
    refine List.Pairwise.cons ?_ ih
    intro m hm
    rw [mem_int_range_aux] at hm
    omega

lemma pairwise_int_range {lo hi : ℤ} :
    List.Pairwise (fun a b => a < b) (int_range lo hi) := pairwise_int_range_aux

/-! Counting lemmas. -/

lemma length_filter_add_length_filter_le {α : Type} (l : List α) (p q : α → Bool)
    (hpq : ∀ x ∈ l, p x = true → q x = false) :
    (l.filter p).length + (l.filter q).length ≤ l.length := by
  induction l with
  | nil => simp
  | cons a t ih =>
    have iht := ih fun x hx => hpq x (List.mem_cons_of_mem a hx)
    by_cases hp : p a = true
    · have hq : q a = false := hpq a (List.mem_cons_self a t) hp
      simp only [List.filter_cons, hp, hq, if_true, Bool.false_eq_true, if_false,
        List.length_cons]
      omega
    · rw [Bool.not_eq_true] at hp
      by_cases hq : q a = true
      · simp only [List.filter_cons, hp, hq, Bool.false_eq_true, if_false, if_true,
          List.length_cons]
        omega
      · rw [Bool.not_eq_true] at hq
        simp only [List.filter_cons, hp, hq, Bool.false_eq_true, if_false,
          List.length_cons]
        omega

lemma is_tp_not_is_sl (e : Event) (h : is_tp e = true) : is_sl e = false := by
  cases her : e.exit_reason with
  | none => simp [is_sl, her]
  | some s =>
    simp only [is_tp, her, beq_iff_eq] at h
    simp only [is_sl, her, beq_eq_false_iff_ne, ne_eq, h]
    decide


/-- C1 (counterexample): the Duration Resolver does not treat a present but
non-numeric `duration_sec` the way the claim states.  Such a cell is not
null, so it blocks every fallback mask of `compute_duration` and is only
coerced to missing afterwards, while the claim sends the event to the
`close_time - open_time` fallback.  At the event below the claimed resolver
yields 100 seconds while the code yields missing. -/
theorem claimed_duration_counterexample :
    claimed_duration non_numeric_duration_event = some 100 ∧
    compute_duration non_numeric_duration_event = none := by
  constructor
  · norm_num [claimed_duration, non_numeric_duration_event, to_num]
  · rfl

/-- C1 (amended): `duration_sec` is used when present and numeric; the
fallbacks (`close_time - open_time`, then `close_ts - open_ts`, then
`open_after_ts - open_ts`, in that priority order) fire only when
`duration_sec` is null, so a present non-numeric value blocks them and
resolves to missing; a negative resolved value is normalized to missing. -/
theorem compute_duration_eq_amended (e : Event) :
    compute_duration e = amended_duration e := by
  obtain ⟨pw, ds, gp, st, er, ot, ct, ots, cts, oats⟩ := e
  cases ds with
  | none =>
    cases ot <;> cases ct <;> cases ots <;> cases cts <;> cases oats <;>
      simp [compute_duration, amended_duration, duration_raw, to_num, nonneg_guard]
  | some v =>
    cases v <;>
      simp [compute_duration, amended_duration, duration_raw, to_num, nonneg_guard]

/-- C3: an event is closed iff its status uppercases to "CLOSED" or its
`exit_reason` is present; with both fields absent the result is false, and
`is_closed` is a total boolean function, so no failure is possible. -/
theorem is_closed_spec (e : Event) :
    (is_closed e = true ↔
      ((∃ s, e.status = some s ∧ str_upper s = "CLOSED") ∨ e.exit_reason.isSome = true)) ∧
    (e.status = none → e.exit_reason = none → is_closed e = false) := by
  constructor
  · cases hst : e.status <;> cases her : e.exit_reason <;>
      simp [is_closed, hst, her]
  · intro h1 h2
    simp [is_closed, h1, h2]

theorem is_closed_spec_witness :
    is_closed {} = false ∧ is_closed { exit_reason := some "TP" } = true := by
  refine ⟨(is_closed_spec {}).2 rfl rfl, ?_⟩
  exact (is_closed_spec { exit_reason := some "TP" }).1.mpr (Or.inr rfl)

/-- C4: a negative duration never survives resolution.  Every duration the
resolver returns is nonnegative; a directly supplied negative
`duration_sec` resolves to missing; and the duration series from which
each group's avg, median, min and max statistics are computed contains
only the resolved (hence nonnegative) values, so a negative input never
contributes to any statistic. -/
theorem negative_durations_never_contribute :
    (∀ (e : Event) (d : ℚ), compute_duration e = some d → 0 ≤ d) ∧
    (∀ (e : Event) (q : ℚ),
      e.duration_sec = some (RawVal.num q) → q < 0 → compute_duration e = none) ∧
    (∀ (g : List Event) (d : ℚ), d ∈ closed_durations g → 0 ≤ d) := by
  have h1 : ∀ (e : Event) (d : ℚ), compute_duration e = some d → 0 ≤ d := by
    intro e d h
    unfold compute_duration nonneg_guard at h
    cases hx : to_num (duration_raw e) with
    | none => rw [hx] at h; simp at h
    | some q =>
      rw [hx] at h
      simp only [Option.some_bind] at h
      by_cases hq : q < 0
      · rw [if_pos hq] at h; exact absurd h (by simp)
      · rw [if_neg hq] at h
        rw [Option.some_inj] at h
        rw [← h]
        exact le_of_not_lt hq
  refine ⟨h1, ?_, ?_⟩
  · intro e q hq hneg
    simp [compute_duration, duration_raw, to_num, nonneg_guard, hq, hneg]
  · intro g d hd
    obtain ⟨e, he, hce⟩ := List.mem_filterMap.mp hd
    exact h1 e d hce

theorem negative_durations_never_contribute_witness :
    compute_duration { duration_sec := some (RawVal.num 5) } = some 5 ∧
    (0 : ℚ) ≤ 5 ∧
    compute_duration { duration_sec := some (RawVal.num (-7)) } = none := by
  refine ⟨by norm_num [compute_duration, duration_raw, to_num, nonneg_guard], ?_, ?_⟩
  · exact negative_durations_never_contribute.1
      { duration_sec := some (RawVal.num 5) } 5
      (by norm_num [compute_duration, duration_raw, to_num, nonneg_guard])
  · exact negative_durations_never_contribute.2.1
      { duration_sec := some (RawVal.num (-7)) } (-7) rfl (by norm_num)


/-! A small concrete dataset used to instantiate the theorems: one event
with power 60, a resolved 5-second duration, and a TP exit. -/

def ev_a : Event :=
  { power := some (RawVal.num 60)
    duration_sec := some (RawVal.num 5)
    exit_reason := some "TP" }

def demo_events : List Event := [ev_a]

lemma ev_a_power_int : power_int ev_a = some 60 := by
  norm_num [power_int, ev_a]

lemma demo_valid : valid_events demo_events = [ev_a] := by
  simp [valid_events, demo_events, List.filter_cons, ev_a_power_int]

lemma demo_obs : observed_ints demo_events = [60] := by
  rw [observed_ints, demo_valid]
  simp [List.filterMap_cons, ev_a_power_int]

lemma demo_summary :
    summarize_by_integer demo_events none none
      = [mk_row (valid_events demo_events) 60] := by
  rw [summarize_spec demo_events none none 60 60 (by rw [demo_obs]; rfl)
    (by rw [demo_obs]; rfl)]
  norm_num [int_range, int_range_aux]

lemma demo_mem :
    mk_row (valid_events demo_events) 60
      ∈ summarize_by_integer demo_events none none := by
  rw [demo_summary]
  exact List.mem_singleton_self _

lemma demo_group : group_of (valid_events demo_events) 60 = [ev_a] := by
  rw [demo_valid]
  simp [group_of, List.filter_cons, ev_a_power_int]

lemma is_closed_ev_a : is_closed ev_a = true := rfl

lemma is_tp_ev_a : is_tp ev_a = true := by decide

lemma is_sl_ev_a : is_sl ev_a = false := by decide

lemma demo_closed_list : List.filter is_closed [ev_a] = [ev_a] := by
  simp [List.filter_cons, is_closed_ev_a]

lemma demo_tp_count : (mk_row (valid_events demo_events) 60).tp_count = 1 := by
  rw [mk_row_tp_count, demo_group, demo_closed_list]
  simp [List.filter_cons, is_tp_ev_a]

lemma demo_sl_count : (mk_row (valid_events demo_events) 60).sl_count = 0 := by
  rw [mk_row_sl_count, demo_group, demo_closed_list]
  simp [List.filter_cons, is_sl_ev_a]


/-- C5: in every summary row the closed count never exceeds the total
count, so the derived `open_trades = total_trades - closed_trades`
satisfies `open_trades + closed_trades = total_trades` and is never
negative.  (`rep.py` reports total and closed; `open_trades` is the
spec's derived quantity.) -/
theorem open_plus_closed_eq_total (events : List Event)
    (min_int max_int : Option ℤ) (row : Row)
    (h : row ∈ summarize_by_integer events min_int max_int) :
    row.closed_trades ≤ row.total_trades ∧
    (row.total_trades - row.closed_trades) + row.closed_trades
      = row.total_trades ∧
    0 ≤ (row.total_trades : ℤ) - (row.closed_trades : ℤ) := by
  obtain ⟨n, rfl⟩ := mem_summarize h
  rw [mk_row_closed_trades, mk_row_total_trades]
  have hle := List.length_filter_le is_closed (group_of (valid_events events) n)
  exact ⟨hle, by omega, by omega⟩

theorem open_plus_closed_eq_total_witness :
    (mk_row (valid_events demo_events) 60).closed_trades
      ≤ (mk_row (valid_events demo_events) 60).total_trades ∧
    ((mk_row (valid_events demo_events) 60).total_trades
        - (mk_row (valid_events demo_events) 60).closed_trades)
      + (mk_row (valid_events demo_events) 60).closed_trades
      = (mk_row (valid_events demo_events) 60).total_trades ∧
    0 ≤ ((mk_row (valid_events demo_events) 60).total_trades : ℤ)
      - ((mk_row (valid_events demo_events) 60).closed_trades : ℤ) :=
  open_plus_closed_eq_total demo_events none none _ demo_mem

/-- C6: in every summary row `tp_count + sl_count ≤ closed_trades`,
because the TP and SL tests are mutually exclusive filters over the closed
rows of the group; and when no event carries an `exit_reason` both counts
are zero. -/
theorem tp_plus_sl_le_closed (events : List Event)
    (min_int max_int : Option ℤ) (row : Row)
    (h : row ∈ summarize_by_integer events min_int max_int) :
    row.tp_count + row.sl_count ≤ row.closed_trades ∧
    ((∀ e ∈ events, e.exit_reason = none) →
      row.tp_count = 0 ∧ row.sl_count = 0) := by
  obtain ⟨n, rfl⟩ := mem_summarize h
  rw [mk_row_tp_count, mk_row_sl_count, mk_row_closed_trades]
  constructor
  · by_cases h0 : 0 < ((group_of (valid_events events) n).filter is_closed).length
    · rw [if_pos h0, if_pos h0]
      exact length_filter_add_length_filter_le _ is_tp is_sl
        fun x _ hx => is_tp_not_is_sl x hx
    · rw [if_neg h0, if_neg h0]
      omega
  · intro habs
    have her : ∀ x ∈ (group_of (valid_events events) n).filter is_closed,
        is_tp x = false ∧ is_sl x = false := by
      intro x hx
      have hx1 := List.mem_of_mem_filter hx
      have hx2 := List.mem_of_mem_filter hx1
      have hx3 := List.mem_of_mem_filter hx2
      have hnone := habs x hx3
      exact ⟨by simp [is_tp, hnone], by simp [is_sl, hnone]⟩
    have htp : ((group_of (valid_events events) n).filter is_closed).filter is_tp = [] :=
      List.filter_eq_nil_iff.mpr fun x hx => by simp [(her x hx).1]
    have hsl : ((group_of (valid_events events) n).filter is_closed).filter is_sl = [] :=
      List.filter_eq_nil_iff.mpr fun x hx => by simp [(her x hx).2]
    constructor
    · by_cases h0 : 0 < ((group_of (valid_events events) n).filter is_closed).length
      · rw [if_pos h0, htp]
        rfl
      · rw [if_neg h0]
    · by_cases h0 : 0 < ((group_of (valid_events events) n).filter is_closed).length
      · rw [if_pos h0, hsl]
        rfl
      · rw [if_neg h0]

theorem tp_plus_sl_le_closed_witness :
    (mk_row (valid_events demo_events) 60).tp_count
        + (mk_row (valid_events demo_events) 60).sl_count
      ≤ (mk_row (valid_events demo_events) 60).closed_trades ∧
    ((∀ e ∈ demo_events, e.exit_reason = none) →
      (mk_row (valid_events demo_events) 60).tp_count = 0 ∧
      (mk_row (valid_events demo_events) 60).sl_count = 0) :=
  tp_plus_sl_le_closed demo_events none none _ demo_mem

/-- C7: for every summary row, the spec-modelled `tp_rate_pct` of its
`tp_count` and `sl_count` equals `100 * tp_count / (tp_count + sl_count)`
when that denominator is positive and is missing (not zero) when
`tp_count + sl_count = 0`. -/
theorem tp_rate_pct_spec (events : List Event)
    (min_int max_int : Option ℤ) (row : Row)
    (_h : row ∈ summarize_by_integer events min_int max_int) :
    (0 < row.tp_count + row.sl_count →
      tp_rate_pct row.tp_count row.sl_count
        = some (100 * (row.tp_count : ℚ)
            / ((row.tp_count : ℚ) + (row.sl_count : ℚ)))) ∧
    (row.tp_count + row.sl_count = 0 →
      tp_rate_pct row.tp_count row.sl_count = none) := by
  constructor
  · intro hpos
    rw [tp_rate_pct, if_pos hpos]
  · intro h0
    rw [tp_rate_pct, if_neg (by omega)]

theorem tp_rate_pct_spec_witness :
    tp_rate_pct (mk_row (valid_events demo_events) 60).tp_count
        (mk_row (valid_events demo_events) 60).sl_count
      = some (100 * ((mk_row (valid_events demo_events) 60).tp_count : ℚ)
          / (((mk_row (valid_events demo_events) 60).tp_count : ℚ)
              + ((mk_row (valid_events demo_events) 60).sl_count : ℚ))) :=
  (tp_rate_pct_spec demo_events none none _ demo_mem).1
    (by rw [demo_tp_count, demo_sl_count]; omega)

/-- C8: when no event has a usable grouping value (in particular for an
empty input), `summarize_by_integer` returns the empty table and `main`
prints the explicit no-data message; both functions are total, so no
exception can be raised. -/
theorem empty_input_no_data (events : List Event) (min_int max_int : Option ℤ)
    (h : ∀ e ∈ events, power_int e = none) :
    summarize_by_integer events min_int max_int = [] ∧
    report_of_summary (summarize_by_integer events min_int max_int)
      = Report.summaryEmpty := by
  have hval : valid_events events = [] :=
    List.filter_eq_nil_iff.mpr fun e he => by simp [h e he]
  have hobs : observed_ints events = [] := by
    rw [observed_ints, hval]
    rfl
  have hs := summarize_empty events min_int max_int hobs
  refine ⟨hs, ?_⟩
  rw [hs]
  rfl

theorem empty_input_no_data_witness :
    summarize_by_integer [] none none = [] ∧
    report_of_summary (summarize_by_integer [] none none)
      = Report.summaryEmpty :=
  empty_input_no_data [] none none fun e he => absurd he (List.not_mem_nil e)


lemma obs_min_max_of_ne_nil {l : List ℤ} (h : l ≠ []) :
    ∃ lo hi, obs_min l = some lo ∧ obs_max l = some hi := by
  cases l with
  | nil => exact absurd rfl h
  | cons x xs => exact ⟨xs.foldl min x, xs.foldl max x, rfl, rfl⟩

/-- C2: with numeric power the group key is `floor(power)` and each summary
row's label renders the key `n` as `"n-(n+1)"`; in particular power 60.9
keys interval 60 with label "60-61" and power 61.0 keys interval 61 with
label "61-62". -/
theorem integer_interval_key_and_label :
    (∀ (e : Event) (q : ℚ), e.power = some (RawVal.num q) →
      power_int e = some ⌊q⌋) ∧
    (∀ (events : List Event) (min_int max_int : Option ℤ),
      ∀ row ∈ summarize_by_integer events min_int max_int,
        row.range = toString row.power_int ++ "-" ++ toString (row.power_int + 1)) ∧
    power_int { power := some (RawVal.num (609 / 10)) } = some 60 ∧
    power_int { power := some (RawVal.num 61) } = some 61 ∧
    interval_label 60 = "60-61" ∧
    interval_label 61 = "61-62" := by
  refine ⟨?_, ?_, ?_, ?_, rfl, rfl⟩
  · intro e q hq
    simp [power_int, hq]
  · intro events min_int max_int row h
    obtain ⟨n, rfl⟩ := mem_summarize h
    rw [mk_row_range, mk_row_power_int]
    rfl
  · norm_num [power_int]
  · norm_num [power_int]

theorem integer_interval_key_and_label_witness :
    power_int { power := some (RawVal.num (609 / 10)) } = some 60 ∧
    (mk_row (valid_events demo_events) 60).range = "60-61" := by
  constructor
  · have h := integer_interval_key_and_label.1
      { power := some (RawVal.num (609 / 10)) } (609 / 10) rfl
    rw [h]
    norm_num
  · have h := integer_interval_key_and_label.2.1 demo_events none none _ demo_mem
    rw [h]
    rfl

/-- C10: whenever the summary is non-empty, the observed `power_int` values
have a minimum and maximum; the rows' keys are exactly the integers from
the lower bound (supplied `min_int`, else the observed minimum) to the
upper bound (supplied `max_int`, else the observed maximum), inclusive and
strictly ascending — including keys matched by no event; and each row's
`total_trades` counts exactly the events whose `power_int` equals the
row's key, which excludes every event with missing or non-numeric power. -/
theorem summary_rows_complete (events : List Event)
    (min_int max_int : Option ℤ)
    (hne : summarize_by_integer events min_int max_int ≠ []) :
    ∃ lo hi,
      obs_min (observed_ints events) = some lo ∧
      obs_max (observed_ints events) = some hi ∧
      (summarize_by_integer events min_int max_int).map Row.power_int
        = int_range (min_int.getD lo) (max_int.getD hi) ∧
      (∀ n : ℤ,
        n ∈ (summarize_by_integer events min_int max_int).map Row.power_int ↔
          min_int.getD lo ≤ n ∧ n ≤ max_int.getD hi) ∧
      List.Pairwise (fun a b => a < b)
        ((summarize_by_integer events min_int max_int).map Row.power_int) ∧
      ∀ row ∈ summarize_by_integer events min_int max_int,
        row.total_trades
          = (events.filter fun e => power_int e == some row.power_int).length := by
  have hne' : observed_ints events ≠ [] := fun hobs =>
    hne (summarize_empty events min_int max_int hobs)
  obtain ⟨lo0, hi0, h1, h2⟩ := obs_min_max_of_ne_nil hne'
  have hsum := summarize_spec events min_int max_int _ _ h1 h2
  have hmap : (summarize_by_integer events min_int max_int).map Row.power_int
      = int_range (min_int.getD lo0) (max_int.getD hi0) := by
    rw [hsum, List.map_map]
    have hcomp : Row.power_int ∘ mk_row (valid_events events) = id :=
      funext fun n => rfl
    rw [hcomp, List.map_id]
  refine ⟨_, _, h1, h2, hmap, ?_, ?_, ?_⟩
  · intro n
    rw [hmap]
    exact mem_int_range
  · rw [hmap]
    exact pairwise_int_range
  · intro row hrow
    rw [hsum] at hrow
    obtain ⟨n, _, rfl⟩ := List.mem_map.mp hrow
    rw [mk_row_power_int, mk_row_total_trades]
    rw [group_of, valid_events, List.filter_filter]
    refine congrArg List.length (List.filter_congr ?_)
    intro e _
    cases hp : power_int e with
    | none => simp [hp]
    | some m => simp [hp]

theorem summary_rows_complete_witness :
    ∃ lo hi,
      obs_min (observed_ints demo_events) = some lo ∧
      obs_max (observed_ints demo_events) = some hi ∧
      (summarize_by_integer demo_events none none).map Row.power_int
        = int_range ((none : Option ℤ).getD lo) ((none : Option ℤ).getD hi) ∧
      (∀ n : ℤ,
        n ∈ (summarize_by_integer demo_events none none).map Row.power_int ↔
          (none : Option ℤ).getD lo ≤ n ∧ n ≤ (none : Option ℤ).getD hi) ∧
      List.Pairwise (fun a b => a < b)
        ((summarize_by_integer demo_events none none).map Row.power_int) ∧
      ∀ row ∈ summarize_by_integer demo_events none none,
        row.total_trades
          = (demo_events.filter fun e => power_int e == some row.power_int).length :=
  summary_rows_complete demo_events none none
    (by rw [demo_summary]; simp)

end Rep
